import Mathlib

/- Verification of the execution layer of pgcli (src/pgcli/pgexecute.py).

   Strings are modelled as `List Char`.  The psycopg2 driver and the
   pgspecial meta-command dispatcher are external collaborators and are
   modelled as oracles gathered in a `PgEnv` record; the mutable
   `PGExecute` object is modelled as a `Session` value threaded through
   `PGExecute.run` explicitly.  The third component of `run`'s result
   counts round trips to the database server (cursor uses / connection
   attempts), so that "no trip to the server" is expressible. -/

/- ------------------------------------------------------------------ -/
/- Python string primitives used by pgexecute.py                       -/
/- ------------------------------------------------------------------ -/

/-- The six ASCII whitespace characters stripped by Python's str.strip(). -/
def isSpaceChar (c : Char) : Bool :=
  c == ' ' || c == '\t' || c == '\n' || c == '\r' || c == '\x0b' || c == '\x0c'

/-- A semicolon, the character set of the source's rstrip(';'). -/
def isSemiChar (c : Char) : Bool := c == ';'

/-- Python str.lstrip(): drop leading whitespace. -/
def lstrip (l : List Char) : List Char := l.dropWhile isSpaceChar

/-- Python str.rstrip(): drop trailing whitespace. -/
def rstrip (l : List Char) : List Char := List.rdropWhile isSpaceChar l

/-- Python str.strip(): drop whitespace at both ends. -/
def strip (l : List Char) : List Char := rstrip (lstrip l)

/-- Python str.rstrip(';'): drop every trailing semicolon. -/
def rstripSemi (l : List Char) : List Char := List.rdropWhile isSemiChar l

/-- The normalization performed by PGExecute.run before classification:
    sql.strip() followed by sql.rstrip(';'). -/
def normalizeSql (l : List Char) : List Char := rstripSemi (strip l)

/-- Python str.split() with no argument: split on whitespace runs,
    omitting empty tokens.  Accumulator-based so it reduces by rfl. -/
def splitWsAux : List Char → List Char → List (List Char)
  | [], acc => if acc.isEmpty then [] else [acc.reverse]
  | c :: cs, acc =>
    if isSpaceChar c then
      if acc.isEmpty then splitWsAux cs [] else acc.reverse :: splitWsAux cs []
    else splitWsAux cs (c :: acc)

/-- Python str.split() with no argument. -/
def splitWs (l : List Char) : List (List Char) := splitWsAux l []

/-- Python `c in s` for a single character. -/
def containsChar (c : Char) (s : List Char) : Bool := s.contains c

/-- Python s.partition(c) restricted to the (before, after) pair; the
    source only uses it (and split(c, 1)) under an `c in s` guard, where
    both return the text before and after the first occurrence of c. -/
def pyPartition (c : Char) : List Char → List Char × List Char
  | [] => ([], [])
  | x :: xs =>
    if x = c then ([], xs)
    else
      let r := pyPartition c xs
      (x :: r.1, r.2)

/-- Python `x or default` where x is None or a string: None and the
    empty string both fall back to the default. -/
def orDefault (v : Option (List Char)) (d : List Char) : List Char :=
  match v with
  | none => d
  | some s => if s = [] then d else s

/- ------------------------------------------------------------------ -/
/- The connection-string resolver (_parse_dsn)                         -/
/- ------------------------------------------------------------------ -/

/-- The scheme-stripping prelude of _parse_dsn: remove a leading
    postgres:// or postgresql:// if present. -/
def stripScheme (dsn : List Char) : List Char :=
  if "postgres://".toList.isPrefixOf dsn then dsn.drop "postgres://".toList.length
  else if "postgresql://".toList.isPrefixOf dsn then dsn.drop "postgresql://".toList.length
  else dsn

/-- The five fields as _parse_dsn's parsing phase leaves them (None when
    the descriptor did not provide the field), before default
    substitution.  Mirrors the body of the `if '/' in dsn:` block. -/
structure ParsedFields where
  user : Option (List Char)
  password : Option (List Char)
  host : Option (List Char)
  port : Option (List Char)
  dbname : Option (List Char)
deriving DecidableEq

/-- The parsing phase of _parse_dsn on the scheme-stripped descriptor. -/
def parseFields (dsn : List Char) : ParsedFields :=
  if containsChar '/' dsn then
    let p := pyPartition '/' dsn
    let host0 := p.1
    let dbname := p.2
    let up :=
      if containsChar '@' host0 then (some (pyPartition '@' host0).1, (pyPartition '@' host0).2)
      else (none, host0)
    let user0 := up.1
    let host1 := up.2
    let hp :=
      if containsChar ':' host1 then ((pyPartition ':' host1).1, some (pyPartition ':' host1).2)
      else (host1, none)
    let upw : Option (List Char) × Option (List Char) :=
      match user0 with
      | some u =>
        if u ≠ [] ∧ containsChar ':' u = true then (some (pyPartition ':' u).1, some (pyPartition ':' u).2)
        else (some u, none)
      | none => (none, none)
    ⟨upw.1, upw.2, some hp.1, hp.2, some dbname⟩
  else ⟨none, none, none, none, none⟩

/-- _parse_dsn(dsn, default_user, default_password, default_host,
    default_port): returns (dbname, user, password, host, port).  Each
    of user/password/host/port falls back to its default via `or`; the
    dbname falls back to the whole scheme-stripped remainder. -/
def _parse_dsn (dsn du dp dh dport : List Char) :
    List Char × List Char × List Char × List Char × List Char :=
  let rest := stripScheme dsn
  let f := parseFields rest
  (orDefault f.dbname rest, orDefault f.user du, orDefault f.password dp,
    orDefault f.host dh, orDefault f.port dport)

/- ------------------------------------------------------------------ -/
/- The execution engine (PGExecute.run)                                -/
/- ------------------------------------------------------------------ -/

/-- One execution outcome: (rows | None, headers | None, status | None).
    Rows are a list of row tuples whose cells are strings. -/
structure ResultEntry where
  rows : Option (List (List (List Char)))
  headers : Option (List (List Char))
  status : Option (List Char)
deriving DecidableEq

/-- The PGExecute object's mutable state: identity fields, the driver
    connection handle (an abstract id) and its autocommit flag. -/
structure Session where
  dbname : List Char
  user : List Char
  password : List Char
  host : List Char
  port : List Char
  conn : Nat
  autocommit : Bool
deriving DecidableEq

/-- The errors run can raise: psycopg2 connect failures, the
    RuntimeError('Database name missing.') of the switch path, and
    driver errors from cur.execute. -/
inductive PgError where
  | connectionError : PgError
  | missingArgument : List Char → PgError
  | queryError : PgError
deriving DecidableEq

/-- run either returns a list of ResultEntry or raises. -/
inductive RunResult where
  | ok : List ResultEntry → RunResult
  | err : PgError → RunResult
deriving DecidableEq

/-- The external collaborators of pgexecute.py as oracles.
    connect takes (database, user, password, host, port) and yields a
    fresh connection handle, or None when psycopg2.connect raises.
    pgspecial is modelled from the spec: the repository's
    packages/pgspecial module is not under src/; per the spec it is a
    dispatcher keyed by the leading token that, given a cursor (here:
    the connection handle) and the statement text, either returns a list
    of ResultEntry or signals lookup failure (KeyError), modelled as
    Option.  execOk/description/fetchall/statusmessage model the cursor
    of the given connection after executing the given text. -/
structure PgEnv where
  connect : List Char → List Char → List Char → List Char → List Char → Option Nat
  pgspecial : Nat → List Char → Option (List ResultEntry)
  execOk : Nat → List Char → Bool
  description : Nat → List Char → Option (List (List Char × List Char))
  fetchall : Nat → List Char → List (List (List Char))
  statusmessage : Nat → List Char → List Char

/-- 'You are now connected to database "%s" as user "%s"' % (db, user). -/
def switchMessage (dbname user : List Char) : List Char :=
  "You are now connected to database \"".toList ++ dbname ++
    "\" as user \"".toList ++ user ++ "\"".toList

/-- The classification test of the source:
    sql.startswith('\c') or sql.lower().startswith('use').
    In Python '\c' is the two characters backslash and c. -/
def isSwitchCommand (sql : List Char) : Bool :=
  "\\c".toList.isPrefixOf sql || "use".toList.isPrefixOf (sql.map Char.toLower)

/-- The database-switch branch of run, applied to the normalized text:
    take sql.split()[1] as the target (RuntimeError when absent), open a
    new connection with the session's stored credentials, then assign
    conn and dbname and set autocommit. -/
def runSwitch (env : PgEnv) (s : Session) (n : List Char) : RunResult × Session × Nat :=
  match (splitWs n)[1]? with
  | none => (.err (.missingArgument "Database name missing.".toList), s, 0)
  | some dbname =>
    match env.connect dbname s.user s.password s.host s.port with
    | none => (.err .connectionError, s, 1)
    | some c =>
      (.ok [⟨none, none, some (switchMessage dbname s.user)⟩],
        { s with conn := c, dbname := dbname, autocommit := true }, 1)

/-- The plain-SQL tail of run: cur.execute(sql), then one entry with
    (fetchall, headers, statusmessage) when cur.description is present,
    else one entry with only the status message. -/
def runExec (env : PgEnv) (s : Session) (n : List Char) : RunResult × Session × Nat :=
  if env.execOk s.conn n then
    match env.description s.conn n with
    | some desc =>
      (.ok [⟨some (env.fetchall s.conn n), some (desc.map Prod.fst),
        some (env.statusmessage s.conn n)⟩], s, 1)
    | none => (.ok [⟨none, none, some (env.statusmessage s.conn n)⟩], s, 1)
  else (.err .queryError, s, 1)

/-- The non-switch branch of run: offer the normalized text to
    pgspecial.execute on a cursor of the current connection; on KeyError
    fall through to plain execution of the same text. -/
def runPlain (env : PgEnv) (s : Session) (n : List Char) : RunResult × Session × Nat :=
  match env.pgspecial s.conn n with
  | some rs => (.ok rs, s, 1)
  | none => runExec env s n

/-- run's body after the empty-string early return, on the normalized
    text. -/
def runNonEmpty (env : PgEnv) (s : Session) (n : List Char) : RunResult × Session × Nat :=
  if isSwitchCommand n then runSwitch env s n else runPlain env s n

/-- PGExecute.run(sql): empty string short-circuits with a single
    all-absent entry and no server round trip; otherwise the text is
    normalized and dispatched. -/
def PGExecute.run (env : PgEnv) (s : Session) (sql : List Char) :
    RunResult × Session × Nat :=
  if sql = [] then (.ok [⟨none, none, none⟩], s, 0)
  else runNonEmpty env s (normalizeSql sql)

/- ------------------------------------------------------------------ -/
/- The spec's wording of switch classification, for comparison          -/
/- ------------------------------------------------------------------ -/

/-- Written from the spec's words, not from the source: a statement is a
    database-switch when its first whitespace-delimited token is exactly
    the symbol backslash-c, or, case-insensitively, exactly the word
    use. -/
def specSwitchByToken (sql : List Char) : Bool :=
  match (splitWs sql)[0]? with
  | some t => t == "\\c".toList || t.map Char.toLower == "use".toList
  | none => false

/- ------------------------------------------------------------------ -/
/- Concrete oracles and state for witnesses and counterexamples         -/
/- ------------------------------------------------------------------ -/

/-- A concrete session. -/
def s0 : Session :=
  { dbname := "db0".toList, user := "u0".toList, password := "pw0".toList,
    host := "h0".toList, port := "5432".toList, conn := 1, autocommit := true }

/-- A concrete environment: connecting to "bad" fails, everything else
    succeeds; the dispatcher recognizes nothing; no result set. -/
def env0 : PgEnv :=
  { connect := fun db _ _ _ _ => if db = "bad".toList then none else some 7
  , pgspecial := fun _ _ => none
  , execOk := fun _ _ => true
  , description := fun _ _ => none
  , fetchall := fun _ _ => []
  , statusmessage := fun _ _ => "DONE".toList }

/-- A concrete environment whose cursor reports a column description
    exactly for the text "x " (with the trailing blank). -/
def env1 : PgEnv :=
  { connect := fun _ _ _ _ _ => some 7
  , pgspecial := fun _ _ => none
  , execOk := fun _ _ => true
  , description := fun _ n => if n = "x ".toList then some [("col".toList, "t".toList)] else none
  , fetchall := fun _ _ => []
  , statusmessage := fun _ _ => "OK".toList }

/-- A concrete environment whose dispatcher recognizes exactly the
    meta-command text backslash-d. -/
def env2 : PgEnv :=
  { env0 with
    pgspecial := fun _ n =>
      if n = "\\d".toList then
        some [⟨some [["t1".toList]], some ["Name".toList], some "SELECT 1".toList⟩]
      else none }


/- ------------------------------------------------------------------ -/
/- Lemmas about the string primitives and splitWs                      -/
/- ------------------------------------------------------------------ -/

theorem dropWhile_append_of_all (p : Char → Bool) (w l : List Char)
    (h : ∀ x ∈ w, p x = true) :
    List.dropWhile p (w ++ l) = List.dropWhile p l := by
  induction w with
  | nil => rfl
  | cons a w ih =>
    have ha : p a = true := h a (by simp)
    simp only [List.cons_append, List.dropWhile_cons, ha, if_pos]
    exact ih fun x hx => h x (by simp [hx])

theorem dropWhile_append_cons_of_neg (p : Char → Bool) (z : List Char) (c : Char)
    (X : List Char) (h : p c = false) :
    List.dropWhile p (z ++ c :: X) = List.dropWhile p z ++ c :: X := by
  induction z with
  | nil => simp [List.dropWhile_cons, h]
  | cons a z ih =>
    by_cases ha : p a = true
    · simp [List.dropWhile_cons, ha, ih]
    · have hb : p a = false := by simpa using ha
      simp [List.dropWhile_cons, hb]

theorem rstrip_append_ws (y w : List Char) (h : ∀ x ∈ w, isSpaceChar x = true) :
    rstrip (y ++ w) = rstrip y := by
  induction w using List.reverseRecOn with
  | nil => simp
  | append_singleton w x ih =>
    have hx : isSpaceChar x = true := h x (by simp)
    rw [← List.append_assoc, rstrip, List.rdropWhile_concat_pos _ _ _ hx]
    exact ih fun a ha => h a (by simp [ha])

theorem rstrip_concat_of_neg (y : List Char) (c : Char) (h : isSpaceChar c = false) :
    rstrip (y ++ [c]) = y ++ [c] :=
  List.rdropWhile_concat_neg _ _ _ (by simp [h])

theorem rstripSemi_append_semis (y semis : List Char) (h : ∀ x ∈ semis, x = ';') :
    rstripSemi (y ++ semis) = rstripSemi y := by
  induction semis using List.reverseRecOn with
  | nil => simp
  | append_singleton w x ih =>
    have hx : isSemiChar x = true := by
      have := h x (by simp)
      simp [isSemiChar, this]
    rw [← List.append_assoc, rstripSemi, List.rdropWhile_concat_pos _ _ _ hx]
    exact ih fun a ha => h a (by simp [ha])

theorem rstrip_append_semis_of_ne (y semis : List Char) (h0 : semis ≠ [])
    (h : ∀ x ∈ semis, x = ';') : rstrip (y ++ semis) = y ++ semis := by
  rcases (List.eq_nil_or_concat semis) with rfl | ⟨w, x, rfl⟩
  · exact absurd rfl h0
  · rw [List.concat_eq_append] at h ⊢
    have hx : x = ';' := h x (by simp)
    subst hx
    rw [← List.append_assoc, rstrip_concat_of_neg _ _ (by decide), List.append_assoc]

theorem lstrip_eq_nil_of_all (l : List Char) (h : ∀ x ∈ l, isSpaceChar x = true) :
    lstrip l = [] :=
  List.dropWhile_eq_nil_iff.mpr h

theorem normalizeSql_all_space (l : List Char) (h : ∀ x ∈ l, isSpaceChar x = true) :
    normalizeSql l = [] := by
  rw [normalizeSql, strip, lstrip_eq_nil_of_all l h]
  rfl

theorem rstripSemi_prefix (l : List Char) : rstripSemi l <+: l :=
  List.rdropWhile_prefix _ _

theorem rstrip_prefix (l : List Char) : rstrip l <+: l :=
  List.rdropWhile_prefix _ _

theorem dropWhile_cons_head_neg (p : Char → Bool) (l : List Char) (a : Char) (t : List Char)
    (h : List.dropWhile p l = a :: t) : p a = false := by
  induction l with
  | nil => simp at h
  | cons c cs ih =>
    rw [List.dropWhile_cons] at h
    by_cases hc : p c = true
    · rw [if_pos hc] at h
      exact ih h
    · rw [if_neg hc] at h
      injection h with h1 _
      subst h1
      simpa using hc

theorem normalizeSql_head_nonspace (sql : List Char) (a : Char) (t : List Char)
    (h : normalizeSql sql = a :: t) : isSpaceChar a = false := by
  have h1 : normalizeSql sql <+: strip sql := rstripSemi_prefix _
  rw [h] at h1
  obtain ⟨u, hu⟩ := h1
  have h2 : strip sql <+: lstrip sql := rstrip_prefix _
  rw [← hu] at h2
  obtain ⟨v, hv⟩ := h2
  have h3 : List.dropWhile isSpaceChar sql = a :: (t ++ u ++ v) := by
    rw [lstrip] at hv
    rw [← hv]
    simp
  exact dropWhile_cons_head_neg _ _ _ _ h3

theorem splitWsAux_nil_acc (acc : List Char) (h : acc ≠ []) :
    splitWsAux [] acc = [acc.reverse] := by
  simp [splitWsAux, List.isEmpty_iff, h]

theorem splitWsAux_cons_space (c : Char) (cs acc : List Char)
    (hc : isSpaceChar c = true) (h : acc ≠ []) :
    splitWsAux (c :: cs) acc = acc.reverse :: splitWsAux cs [] := by
  simp [splitWsAux, hc, List.isEmpty_iff, h]

theorem splitWsAux_cons_nonspace (c : Char) (cs acc : List Char)
    (hc : isSpaceChar c = false) :
    splitWsAux (c :: cs) acc = splitWsAux cs (c :: acc) := by
  simp [splitWsAux, hc]

theorem splitWs_cons_space (c : Char) (cs : List Char) (h : isSpaceChar c = true) :
    splitWs (c :: cs) = splitWs cs := by
  simp [splitWs, splitWsAux, h]

theorem splitWsAux_acc_ne (r : List Char) :
    ∀ acc : List Char, acc ≠ [] →
      splitWsAux r acc =
        (acc.reverse ++ r.takeWhile (fun x => !isSpaceChar x)) ::
          splitWs (r.dropWhile (fun x => !isSpaceChar x)) := by
  induction r with
  | nil =>
    intro acc hacc
    rw [splitWsAux_nil_acc acc hacc]
    simp [splitWs, splitWsAux]
  | cons c cs ih =>
    intro acc hacc
    by_cases hc : isSpaceChar c = true
    · rw [splitWsAux_cons_space c cs acc hc hacc]
      rw [List.takeWhile_cons, List.dropWhile_cons]
      simp only [hc, Bool.not_true, Bool.false_eq_true, if_false]
      rw [splitWs_cons_space c cs hc]
      simp [splitWs]
    · have hb : isSpaceChar c = false := by simpa using hc
      rw [splitWsAux_cons_nonspace c cs acc hb]
      rw [ih (c :: acc) (by simp)]
      rw [List.takeWhile_cons, List.dropWhile_cons]
      simp [hb]

theorem splitWs_cons_nonspace (a : Char) (t : List Char) (h : isSpaceChar a = false) :
    splitWs (a :: t) =
      ((a :: t).takeWhile (fun x => !isSpaceChar x)) ::
        splitWs (t.dropWhile (fun x => !isSpaceChar x)) := by
  have h0 : splitWs (a :: t) = splitWsAux t [a] := by
    simp [splitWs, splitWsAux, h]
  rw [h0, splitWsAux_acc_ne t [a] (by simp)]
  rw [List.takeWhile_cons]
  simp [h]

/- ------------------------------------------------------------------ -/
/- Lemmas about run's branches and character classes                   -/
/- ------------------------------------------------------------------ -/

/- run plumbing -/

theorem isSwitch_ne_nil (sql : List Char)
    (h : isSwitchCommand (normalizeSql sql) = true) : sql ≠ [] := by
  intro hnil
  subst hnil
  exact absurd h (by decide)

theorem run_eq_runNonEmpty (env : PgEnv) (s : Session) (sql : List Char) (h : sql ≠ []) :
    PGExecute.run env s sql = runNonEmpty env s (normalizeSql sql) := by
  simp [PGExecute.run, h]

theorem run_switch_eq (env : PgEnv) (s : Session) (sql : List Char)
    (h : isSwitchCommand (normalizeSql sql) = true) :
    PGExecute.run env s sql = runSwitch env s (normalizeSql sql) := by
  rw [run_eq_runNonEmpty env s sql (isSwitch_ne_nil sql h), runNonEmpty, if_pos h]

theorem run_plain_eq (env : PgEnv) (s : Session) (sql : List Char) (h1 : sql ≠ [])
    (h2 : isSwitchCommand (normalizeSql sql) = false) :
    PGExecute.run env s sql = runPlain env s (normalizeSql sql) := by
  rw [run_eq_runNonEmpty env s sql h1, runNonEmpty, if_neg (by simp [h2])]

theorem runSwitch_missing (env : PgEnv) (s : Session) (n : List Char)
    (h : (splitWs n)[1]? = none) :
    runSwitch env s n = (.err (.missingArgument "Database name missing.".toList), s, 0) := by
  simp [runSwitch, h]

theorem runSwitch_connfail (env : PgEnv) (s : Session) (n : List Char) (db : List Char)
    (h1 : (splitWs n)[1]? = some db)
    (h2 : env.connect db s.user s.password s.host s.port = none) :
    runSwitch env s n = (.err .connectionError, s, 1) := by
  simp [runSwitch, h1, h2]

theorem runSwitch_ok (env : PgEnv) (s : Session) (n : List Char) (db : List Char) (c : Nat)
    (h1 : (splitWs n)[1]? = some db)
    (h2 : env.connect db s.user s.password s.host s.port = some c) :
    runSwitch env s n =
      (.ok [⟨none, none, some (switchMessage db s.user)⟩],
        { s with conn := c, dbname := db, autocommit := true }, 1) := by
  simp [runSwitch, h1, h2]

theorem runPlain_trips (env : PgEnv) (s : Session) (n : List Char) :
    (runPlain env s n).2.2 = 1 := by
  rw [runPlain]
  cases env.pgspecial s.conn n with
  | some rs => rfl
  | none =>
    rw [runExec]
    by_cases h : env.execOk s.conn n = true
    · rw [if_pos h]
      cases env.description s.conn n <;> rfl
    · rw [if_neg h]

/- character facts for the token characterization -/

theorem space_toLower_fixed (c : Char) (h : isSpaceChar c = true) : Char.toLower c = c := by
  have h6 : ((((c = ' ' ∨ c = '\t') ∨ c = '\n') ∨ c = '\x0d') ∨ c = '\x0b') ∨ c = '\x0c' := by
    simpa [isSpaceChar] using h
  rcases h6 with ((((rfl | rfl) | rfl) | rfl) | rfl) | rfl <;> decide

theorem nonspace_of_toLower_target (c d : Char) (hd : isSpaceChar d = false)
    (h : Char.toLower c = d) (hfix : Char.toLower d = d) : isSpaceChar c = false := by
  by_contra hc
  have hc' : isSpaceChar c = true := by simpa using hc
  have := space_toLower_fixed c hc'
  rw [this] at h
  subst h
  rw [hc'] at hd
  exact absurd hd (by simp)

theorem normalizeSql_decorated (z : List Char) (c : Char) (w1 w2 semis : List Char)
    (hc : isSpaceChar c = false)
    (hw1 : ∀ x ∈ w1, isSpaceChar x = true) (hw2 : ∀ x ∈ w2, isSpaceChar x = true)
    (hs : ∀ x ∈ semis, x = ';') :
    normalizeSql (w1 ++ (z ++ [c]) ++ semis ++ w2) = normalizeSql (z ++ [c]) := by
  have hA : lstrip (z ++ [c]) = lstrip z ++ [c] := by
    have h := dropWhile_append_cons_of_neg isSpaceChar z c [] hc
    simpa [lstrip] using h
  have hL : lstrip (w1 ++ (z ++ [c]) ++ semis ++ w2) = ((lstrip z ++ [c]) ++ semis) ++ w2 := by
    rw [show w1 ++ (z ++ [c]) ++ semis ++ w2 = w1 ++ (z ++ c :: (semis ++ w2)) by simp]
    rw [lstrip, dropWhile_append_of_all _ w1 _ hw1, dropWhile_append_cons_of_neg _ z c _ hc]
    simp [lstrip]
  rw [normalizeSql, strip, hL, normalizeSql, strip, hA]
  rw [rstrip_append_ws _ w2 hw2, rstrip_concat_of_neg _ c hc]
  by_cases h0 : semis = []
  · subst h0
    rw [List.append_nil, rstrip_concat_of_neg _ c hc]
  · rw [rstrip_append_semis_of_ne _ semis h0 hs, rstripSemi_append_semis _ semis hs]

theorem run_decorated (env : PgEnv) (s : Session) (z : List Char) (c : Char)
    (w1 w2 semis : List Char) (hc : isSpaceChar c = false)
    (hw1 : ∀ x ∈ w1, isSpaceChar x = true) (hw2 : ∀ x ∈ w2, isSpaceChar x = true)
    (hs : ∀ x ∈ semis, x = ';') :
    PGExecute.run env s (w1 ++ (z ++ [c]) ++ semis ++ w2) =
      PGExecute.run env s (z ++ [c]) := by
  have hne1 : w1 ++ (z ++ [c]) ++ semis ++ w2 ≠ [] := by simp
  have hne2 : z ++ [c] ≠ [] := by simp
  rw [run_eq_runNonEmpty _ _ _ hne1, run_eq_runNonEmpty _ _ _ hne2,
    normalizeSql_decorated z c w1 w2 semis hc hw1 hw2 hs]

theorem isSwitch_iff_first_token (n : List Char)
    (hn : n = [] ∨ ∃ a t, n = a :: t ∧ isSpaceChar a = false) :
    isSwitchCommand n = true ↔
      ∃ tok rest, splitWs n = tok :: rest ∧
        ("\\c".toList <+: tok ∨ "use".toList <+: tok.map Char.toLower) := by
  rcases hn with rfl | ⟨a, t, rfl, ha⟩
  · constructor
    · intro h
      exact absurd h (by decide)
    · rintro ⟨tok, rest, hsp, _⟩
      rw [show splitWs ([] : List Char) = [] from rfl] at hsp
      cases hsp
  · have hna : (!isSpaceChar a) = true := by simp [ha]
    have hsplit := splitWs_cons_nonspace a t ha
    rw [isSwitchCommand, Bool.or_eq_true, List.isPrefixOf_iff_prefix,
      List.isPrefixOf_iff_prefix]
    constructor
    · intro h
      rcases h with h | h
      · obtain ⟨w, hw⟩ := h
        have hw' : a :: t = '\\' :: 'c' :: w := by
          rw [← hw]
          rfl
        injection hw' with h1 h2
        subst h1
        subst h2
        refine ⟨_, _, hsplit, Or.inl ?_⟩
        have h2 : (!isSpaceChar 'c') = true := by decide
        rw [List.takeWhile_cons, if_pos hna, List.takeWhile_cons, if_pos h2]
        exact ⟨List.takeWhile (fun x => !isSpaceChar x) w, rfl⟩
      · obtain ⟨w, hw⟩ := h
        rw [List.map_cons] at hw
        have hw' : Char.toLower a = 'u' ∧ List.map Char.toLower t = 's' :: 'e' :: w := by
          have := hw.symm
          injection this with h1 h2
          exact ⟨h1, h2⟩
        obtain ⟨hua, hmt⟩ := hw'
        cases t with
        | nil => simp at hmt
        | cons b t2 =>
          rw [List.map_cons] at hmt
          injection hmt with hb hmt2
          cases t2 with
          | nil => simp at hmt2
          | cons d t3 =>
            rw [List.map_cons] at hmt2
            injection hmt2 with hd hmt3
            have hbs : isSpaceChar b = false :=
              nonspace_of_toLower_target b 's' (by decide) hb (by decide)
            have hds : isSpaceChar d = false :=
              nonspace_of_toLower_target d 'e' (by decide) hd (by decide)
            have hnb : (!isSpaceChar b) = true := by simp [hbs]
            have hnd : (!isSpaceChar d) = true := by simp [hds]
            refine ⟨_, _, hsplit, Or.inr ?_⟩
            rw [List.takeWhile_cons, if_pos hna, List.takeWhile_cons, if_pos hnb,
              List.takeWhile_cons, if_pos hnd]
            refine ⟨List.map Char.toLower (List.takeWhile (fun x => !isSpaceChar x) t3), ?_⟩
            simp [hua, hb, hd]
    · rintro ⟨tok, rest, hsp, hor⟩
      rw [hsplit] at hsp
      have htok : tok = (a :: t).takeWhile (fun x => !isSpaceChar x) := by
        injection hsp with h1 _
        exact h1.symm
      have hpre : tok <+: a :: t := by
        rw [htok]
        exact List.takeWhile_prefix _
      rcases hor with h | h
      · exact Or.inl (h.trans hpre)
      · exact Or.inr (h.trans (List.IsPrefix.map Char.toLower hpre))

theorem runPlain_some (env : PgEnv) (s : Session) (n : List Char) (rs : List ResultEntry)
    (h : env.pgspecial s.conn n = some rs) : runPlain env s n = (.ok rs, s, 1) := by
  simp [runPlain, h]

theorem runPlain_none (env : PgEnv) (s : Session) (n : List Char)
    (h : env.pgspecial s.conn n = none) : runPlain env s n = runExec env s n := by
  simp [runPlain, h]

theorem runExec_describe (env : PgEnv) (s : Session) (n : List Char)
    (d : List (List Char × List Char)) (hex : env.execOk s.conn n = true)
    (hd : env.description s.conn n = some d) :
    runExec env s n =
      (.ok [⟨some (env.fetchall s.conn n), some (d.map Prod.fst),
        some (env.statusmessage s.conn n)⟩], s, 1) := by
  simp [runExec, hex, hd]

theorem runExec_nodescribe (env : PgEnv) (s : Session) (n : List Char)
    (hex : env.execOk s.conn n = true) (hd : env.description s.conn n = none) :
    runExec env s n = (.ok [⟨none, none, some (env.statusmessage s.conn n)⟩], s, 1) := by
  simp [runExec, hex, hd]

theorem runExec_fail (env : PgEnv) (s : Session) (n : List Char)
    (hex : env.execOk s.conn n = false) :
    runExec env s n = (.err .queryError, s, 1) := by
  simp [runExec, hex]

theorem runPlain_session (env : PgEnv) (s : Session) (n : List Char) :
    (runPlain env s n).2.1 = s := by
  cases hp : env.pgspecial s.conn n with
  | some rs => rw [runPlain_some env s n rs hp]
  | none =>
    rw [runPlain_none env s n hp, runExec]
    by_cases hex : env.execOk s.conn n = true
    · rw [if_pos hex]
      cases env.description s.conn n <;> rfl
    · rw [if_neg hex]

theorem run_entry_shape (env : PgEnv) (s : Session) (sql : List Char)
    (hd : env.pgspecial s.conn (normalizeSql sql) = none) (res : List ResultEntry)
    (hres : (PGExecute.run env s sql).1 = RunResult.ok res) :
    ∀ e ∈ res, e.rows.isSome = e.headers.isSome := by
  by_cases h0 : sql = []
  · subst h0
    have hres' : res = [⟨none, none, none⟩] := by
      simpa [PGExecute.run] using hres.symm
    subst hres'
    intro e he
    simp only [List.mem_singleton] at he
    subst he
    rfl
  · by_cases hsw : isSwitchCommand (normalizeSql sql) = true
    · cases hdb : (splitWs (normalizeSql sql))[1]? with
      | none =>
        rw [run_switch_eq env s sql hsw, runSwitch_missing env s _ hdb] at hres
        simp at hres
      | some db =>
        cases hc : env.connect db s.user s.password s.host s.port with
        | none =>
          rw [run_switch_eq env s sql hsw, runSwitch_connfail env s _ db hdb hc] at hres
          simp at hres
        | some c =>
          rw [run_switch_eq env s sql hsw, runSwitch_ok env s _ db c hdb hc] at hres
          have hres' : res = [⟨none, none, some (switchMessage db s.user)⟩] := by
            simpa using hres.symm
          subst hres'
          intro e he
          simp only [List.mem_singleton] at he
          subst he
          rfl
    · have hsw' : isSwitchCommand (normalizeSql sql) = false := by simpa using hsw
      rw [run_plain_eq env s sql h0 hsw', runPlain_none env s _ hd] at hres
      by_cases hex : env.execOk s.conn (normalizeSql sql) = true
      · cases hdesc : env.description s.conn (normalizeSql sql) with
        | none =>
          rw [runExec_nodescribe env s _ hex hdesc] at hres
          have hres' : res = [⟨none, none,
              some (env.statusmessage s.conn (normalizeSql sql))⟩] := by
            simpa using hres.symm
          subst hres'
          intro e he
          simp only [List.mem_singleton] at he
          subst he
          rfl
        | some d =>
          rw [runExec_describe env s _ d hex hdesc] at hres
          have hres' : res = [⟨some (env.fetchall s.conn (normalizeSql sql)),
              some (d.map Prod.fst),
              some (env.statusmessage s.conn (normalizeSql sql))⟩] := by
            simpa using hres.symm
          subst hres'
          intro e he
          simp only [List.mem_singleton] at he
          subst he
          rfl
      · have hex' : env.execOk s.conn (normalizeSql sql) = false := by simpa using hex
        rw [runExec_fail env s _ hex'] at hres
        simp at hres


/- ------------------------------------------------------------------ -/
/- Claim theorems                                                      -/
/- ------------------------------------------------------------------ -/

/-- C1, counterexample: the spec's first-token rule rejects the
    statement users (its only token is users, neither the backslash-c
    symbol nor the word use), yet run classifies it as a database-switch
    command: it fails with the missing-database-name error instead of
    reaching the dispatcher. -/
theorem C1_counterexample :
    specSwitchByToken (normalizeSql "users".toList) = false ∧
    PGExecute.run env0 s0 "users".toList =
      (.err (.missingArgument "Database name missing.".toList), s0, 0) := by
  decide

/-- C1 (amended): run classifies a statement as a database-switch
    exactly when the first whitespace-delimited token of the normalized
    text BEGINS WITH backslash-c, or its lowercased form BEGINS WITH
    use — a prefix test, not a whole-token test; when the test holds run
    takes the switch branch and otherwise the dispatch branch. -/
theorem C1_switch_classification (sql : List Char) :
    (isSwitchCommand (normalizeSql sql) = true ↔
      ∃ tok rest, splitWs (normalizeSql sql) = tok :: rest ∧
        ("\\c".toList <+: tok ∨ "use".toList <+: tok.map Char.toLower)) ∧
    (∀ env s, isSwitchCommand (normalizeSql sql) = true →
      PGExecute.run env s sql = runSwitch env s (normalizeSql sql)) ∧
    (∀ env s, sql ≠ [] → isSwitchCommand (normalizeSql sql) = false →
      PGExecute.run env s sql = runPlain env s (normalizeSql sql)) := by
  refine ⟨?_, ?_, ?_⟩
  · apply isSwitch_iff_first_token
    cases hn : normalizeSql sql with
    | nil => exact Or.inl rfl
    | cons a t => exact Or.inr ⟨a, t, rfl, normalizeSql_head_nonspace sql a t hn⟩
  · intro env s h
    exact run_switch_eq env s sql h
  · intro env s h1 h2
    exact run_plain_eq env s sql h1 h2

/-- C1 witness: backslash-copy is classified as a switch (its first
    token begins with backslash-c), so run takes the switch branch. -/
theorem C1_switch_classification_witness :
    PGExecute.run env0 s0 "\\copy t".toList =
      runSwitch env0 s0 (normalizeSql "\\copy t".toList) :=
  (C1_switch_classification "\\copy t".toList).2.1 env0 s0 (by decide)

/-- C2, counterexample: for postgres://host/ a path separator is
    present and the text after it is empty, but the resolved database
    name is the whole remainder host/ rather than that empty tail. -/
theorem C2_counterexample :
    containsChar '/' (stripScheme "postgres://host/".toList) = true ∧
    (pyPartition '/' (stripScheme "postgres://host/".toList)).2 = [] ∧
    (_parse_dsn "postgres://host/".toList "du".toList "dp".toList "dh".toList
      "dpo".toList).1 = "host/".toList := by
  decide

/-- C2 (amended): user, password, host and port fall back to their
    defaults whenever parsing produced no value; the resolved database
    name equals the text after the first path separator when a
    separator is present and that text is non-empty; when the
    separator's tail is empty, and likewise when no separator is
    present, it falls back to the whole scheme-stripped remainder; in
    particular
    resolving postgres:///db yields (db, du, dp, dh, dport). -/
theorem C2_resolution (dsn du dp dh dport : List Char) :
    ((parseFields (stripScheme dsn)).user = none →
      (_parse_dsn dsn du dp dh dport).2.1 = du) ∧
    ((parseFields (stripScheme dsn)).password = none →
      (_parse_dsn dsn du dp dh dport).2.2.1 = dp) ∧
    ((parseFields (stripScheme dsn)).host = none →
      (_parse_dsn dsn du dp dh dport).2.2.2.1 = dh) ∧
    ((parseFields (stripScheme dsn)).port = none →
      (_parse_dsn dsn du dp dh dport).2.2.2.2 = dport) ∧
    (containsChar '/' (stripScheme dsn) = true →
      (pyPartition '/' (stripScheme dsn)).2 ≠ [] →
      (_parse_dsn dsn du dp dh dport).1 = (pyPartition '/' (stripScheme dsn)).2) ∧
    (containsChar '/' (stripScheme dsn) = true →
      (pyPartition '/' (stripScheme dsn)).2 = [] →
      (_parse_dsn dsn du dp dh dport).1 = stripScheme dsn) ∧
    (containsChar '/' (stripScheme dsn) = false →
      (_parse_dsn dsn du dp dh dport).1 = stripScheme dsn) ∧
    _parse_dsn "postgres:///db".toList du dp dh dport =
      ("db".toList, du, dp, dh, dport) := by
  refine ⟨fun h => ?_, fun h => ?_, fun h => ?_, fun h => ?_,
    fun h1 h2 => ?_, fun h1 h2 => ?_, fun h => ?_, ?_⟩
  · simp [_parse_dsn, h, orDefault]
  · simp [_parse_dsn, h, orDefault]
  · simp [_parse_dsn, h, orDefault]
  · simp [_parse_dsn, h, orDefault]
  · have hdb : (parseFields (stripScheme dsn)).dbname =
        some ((pyPartition '/' (stripScheme dsn)).2) := by
      simp [parseFields, h1]
    simp [_parse_dsn, hdb, orDefault, h2]
  · have hdb : (parseFields (stripScheme dsn)).dbname = some [] := by
      rw [← h2]
      simp [parseFields, h1]
    simp [_parse_dsn, hdb, orDefault]
  · have hdb : (parseFields (stripScheme dsn)).dbname = none := by
      simp [parseFields, h]
    simp [_parse_dsn, hdb, orDefault]
  · simp only [_parse_dsn]
    rw [show parseFields (stripScheme "postgres:///db".toList) =
        ⟨none, none, some [], none, some "db".toList⟩ from by decide]
    have h3 : ("db".toList : List Char) ≠ [] := by decide
    simp [orDefault, h3]

/-- C2 witness: for postgres:///db parsing produces no user, so the
    resolved user is the default. -/
theorem C2_resolution_witness :
    (_parse_dsn "postgres:///db".toList "du".toList "dp".toList "dh".toList
      "dpo".toList).2.1 = "du".toList :=
  (C2_resolution "postgres:///db".toList "du".toList "dp".toList "dh".toList
    "dpo".toList).1 (by decide)

/-- C3, counterexample: a whitespace-only statement does not take the
    empty-input path: it is normalized to the empty text, offered to the
    dispatcher and executed, producing a status message and one server
    round trip rather than the all-absent entry with none. -/
theorem C3_counterexample :
    PGExecute.run env0 s0 [' '] = (.ok [⟨none, none, some "DONE".toList⟩], s0, 1) ∧
    PGExecute.run env0 s0 [' '] ≠ (.ok [⟨none, none, none⟩], s0, 0) := by
  decide

/-- C3 (amended): only the genuinely empty string takes the empty-input
    path, returning a single ResultEntry with all three fields absent
    and no server round trip; a whitespace-only non-empty input instead
    falls through to the dispatch path, leaving the session unchanged
    but performing one server round trip. -/
theorem C3_empty_input :
    (∀ env s, PGExecute.run env s [] = (.ok [⟨none, none, none⟩], s, 0)) ∧
    (∀ env s ws, ws ≠ [] → (∀ x ∈ ws, isSpaceChar x = true) →
      (PGExecute.run env s ws).2.1 = s ∧ (PGExecute.run env s ws).2.2 = 1) := by
  constructor
  · intro env s
    rfl
  · intro env s ws h1 h2
    have hn : normalizeSql ws = [] := normalizeSql_all_space ws h2
    have hsw : isSwitchCommand (normalizeSql ws) = false := by
      rw [hn]
      decide
    rw [run_plain_eq env s ws h1 hsw]
    exact ⟨runPlain_session env s _, runPlain_trips env s _⟩

/-- C3 witness: a single blank leaves the session unchanged and costs
    one server round trip. -/
theorem C3_empty_input_witness :
    (PGExecute.run env0 s0 [' ']).2.1 = s0 ∧ (PGExecute.run env0 s0 [' ']).2.2 = 1 :=
  C3_empty_input.2 env0 s0 [' '] (by decide) (by decide)

/-- C4: a database-switch statement with no second whitespace-delimited
    token makes run raise the missing-database-name error and leave the
    session (all its fields) exactly as before, with no server round
    trip. -/
theorem C4_missing_target (env : PgEnv) (s : Session) (sql : List Char)
    (h1 : isSwitchCommand (normalizeSql sql) = true)
    (h2 : (splitWs (normalizeSql sql))[1]? = none) :
    PGExecute.run env s sql =
      (.err (.missingArgument "Database name missing.".toList), s, 0) := by
  rw [run_switch_eq env s sql h1, runSwitch_missing env s _ h2]

/-- C4 witness: a bare backslash-c raises and leaves s0 unchanged. -/
theorem C4_missing_target_witness :
    PGExecute.run env0 s0 "\\c".toList =
      (.err (.missingArgument "Database name missing.".toList), s0, 0) :=
  C4_missing_target env0 s0 "\\c".toList (by decide) (by decide)

/-- C5: a successful database-switch connects with the session's stored
    user, password, host and port, replaces only the connection handle
    and the database-name field (setting autocommit on the new
    connection), and returns one ResultEntry with rows and headers
    absent whose status names the new database and the current user. -/
theorem C5_switch_success (env : PgEnv) (s : Session) (sql db : List Char) (c : Nat)
    (h1 : isSwitchCommand (normalizeSql sql) = true)
    (h2 : (splitWs (normalizeSql sql))[1]? = some db)
    (h3 : env.connect db s.user s.password s.host s.port = some c) :
    PGExecute.run env s sql =
      (.ok [⟨none, none, some (switchMessage db s.user)⟩],
        { s with conn := c, dbname := db, autocommit := true }, 1) := by
  rw [run_switch_eq env s sql h1, runSwitch_ok env s _ db c h2 h3]

/-- C5 witness: switching to db2 under env0. -/
theorem C5_switch_success_witness :
    PGExecute.run env0 s0 "\\c db2".toList =
      (.ok [⟨none, none, some (switchMessage "db2".toList s0.user)⟩],
        { s0 with conn := 7, dbname := "db2".toList, autocommit := true }, 1) :=
  C5_switch_success env0 s0 "\\c db2".toList "db2".toList 7 (by decide) (by decide)
    (by decide)

/-- C6: when the driver's connect raises during a database-switch, run
    propagates the connection error and the session is untouched — the
    connect happens before either assignment, so the old connection
    handle and old database name are still in place. -/
theorem C6_switch_failure (env : PgEnv) (s : Session) (sql db : List Char)
    (h1 : isSwitchCommand (normalizeSql sql) = true)
    (h2 : (splitWs (normalizeSql sql))[1]? = some db)
    (h3 : env.connect db s.user s.password s.host s.port = none) :
    PGExecute.run env s sql = (.err .connectionError, s, 1) := by
  rw [run_switch_eq env s sql h1, runSwitch_connfail env s _ db h2 h3]

/-- C6 witness: switching to the unreachable database bad fails and
    leaves s0 unchanged. -/
theorem C6_switch_failure_witness :
    PGExecute.run env0 s0 "\\c bad".toList = (.err .connectionError, s0, 1) :=
  C6_switch_failure env0 s0 "\\c bad".toList "bad".toList (by decide) (by decide)
    (by decide)

/-- C7: every ResultEntry the engine itself produces has rows and
    headers both present or both absent; for plain SQL with a column
    description the single entry carries the fetched rows, the ordered
    column names and the status message, and without a description it
    carries only the status message. -/
theorem C7_result_shape (env : PgEnv) (s : Session) (sql : List Char)
    (hd : env.pgspecial s.conn (normalizeSql sql) = none) :
    (∀ res, (PGExecute.run env s sql).1 = RunResult.ok res →
      ∀ e ∈ res, e.rows.isSome = e.headers.isSome) ∧
    (∀ d, sql ≠ [] → isSwitchCommand (normalizeSql sql) = false →
      env.execOk s.conn (normalizeSql sql) = true →
      env.description s.conn (normalizeSql sql) = some d →
      PGExecute.run env s sql =
        (.ok [⟨some (env.fetchall s.conn (normalizeSql sql)), some (d.map Prod.fst),
          some (env.statusmessage s.conn (normalizeSql sql))⟩], s, 1)) ∧
    (sql ≠ [] → isSwitchCommand (normalizeSql sql) = false →
      env.execOk s.conn (normalizeSql sql) = true →
      env.description s.conn (normalizeSql sql) = none →
      PGExecute.run env s sql =
        (.ok [⟨none, none, some (env.statusmessage s.conn (normalizeSql sql))⟩],
          s, 1)) := by
  refine ⟨fun res hres => run_entry_shape env s sql hd res hres, ?_, ?_⟩
  · intro d h1 h2 h3 h4
    rw [run_plain_eq env s sql h1 h2, runPlain_none env s _ hd,
      runExec_describe env s _ d h3 h4]
  · intro h1 h2 h3 h4
    rw [run_plain_eq env s sql h1 h2, runPlain_none env s _ hd,
      runExec_nodescribe env s _ h3 h4]

/-- C7 witness: plain SQL without a result set yields the status-only
    entry. -/
theorem C7_result_shape_witness :
    PGExecute.run env0 s0 "select 1".toList =
      (.ok [⟨none, none, some "DONE".toList⟩], s0, 1) :=
  (C7_result_shape env0 s0 "select 1".toList (by decide)).2.2 (by decide) (by decide)
    (by decide) (by decide)

/-- C8, counterexample: normalization strips ALL trailing semicolons,
    not exactly one (x;; normalizes to x, not to x;); surrounding
    whitespace moves the empty statement onto a different path; and a
    trailing semicolon after a statement ending in a blank changes the
    text the driver sees, hence the result shape. -/
theorem C8_counterexample :
    normalizeSql "x;;".toList = "x".toList ∧
    "x".toList ≠ "x;".toList ∧
    PGExecute.run env0 s0 [' '] ≠ PGExecute.run env0 s0 [] ∧
    PGExecute.run env1 s0 "x ;".toList ≠ PGExecute.run env1 s0 "x ".toList := by
  decide

/-- C8 (amended): normalization strips every trailing semicolon after
    trimming; and for a statement that is non-empty and does not end in
    whitespace, surrounding it with whitespace and appending trailing
    semicolons changes neither classification nor results. -/
theorem C8_normalization (env : PgEnv) (s : Session) :
    (∀ y semis, (∀ x ∈ semis, x = ';') → rstripSemi (y ++ semis) = rstripSemi y) ∧
    (∀ z c w1 w2 semis, isSpaceChar c = false →
      (∀ x ∈ w1, isSpaceChar x = true) → (∀ x ∈ w2, isSpaceChar x = true) →
      (∀ x ∈ semis, x = ';') →
      PGExecute.run env s (w1 ++ (z ++ [c]) ++ semis ++ w2) =
        PGExecute.run env s (z ++ [c])) :=
  ⟨rstripSemi_append_semis,
    fun z c w1 w2 semis hc h1 h2 h3 => run_decorated env s z c w1 w2 semis hc h1 h2 h3⟩

/-- C8 witness: appending two semicolons is absorbed by rstripSemi, and
    the blank-padded, semicolon-terminated form of x runs identically
    to x. -/
theorem C8_normalization_witness :
    rstripSemi ("x".toList ++ [';', ';']) = rstripSemi "x".toList ∧
    PGExecute.run env0 s0 ([' '] ++ ([] ++ ['x']) ++ [';'] ++ [' ']) =
      PGExecute.run env0 s0 ([] ++ ['x']) :=
  ⟨(C8_normalization env0 s0).1 "x".toList [';', ';'] (by decide),
    (C8_normalization env0 s0).2 [] 'x' [' '] [' '] [';'] (by decide) (by decide)
      (by decide) (by decide)⟩

/-- C9: for a non-empty, non-switch statement run first offers the
    normalized text to the dispatcher on the current connection; when
    the dispatcher recognizes it, its results are returned unmodified,
    and on lookup failure run sends the same normalized text to the
    driver as plain SQL on the current connection. -/
theorem C9_dispatch (env : PgEnv) (s : Session) (sql : List Char) (h1 : sql ≠ [])
    (h2 : isSwitchCommand (normalizeSql sql) = false) :
    (∀ rs, env.pgspecial s.conn (normalizeSql sql) = some rs →
      PGExecute.run env s sql = (.ok rs, s, 1)) ∧
    (env.pgspecial s.conn (normalizeSql sql) = none →
      PGExecute.run env s sql = runExec env s (normalizeSql sql)) := by
  constructor
  · intro rs hp
    rw [run_plain_eq env s sql h1 h2, runPlain_some env s _ rs hp]
  · intro hp
    rw [run_plain_eq env s sql h1 h2, runPlain_none env s _ hp]

/-- C9 witness: env2's dispatcher recognizes backslash-d and its results
    come back unmodified. -/
theorem C9_dispatch_witness :
    PGExecute.run env2 s0 "\\d".toList =
      (.ok [⟨some [["t1".toList]], some ["Name".toList], some "SELECT 1".toList⟩],
        s0, 1) :=
  (C9_dispatch env2 s0 "\\d".toList (by decide) (by decide)).1 _ (by decide)

/-- C10: a successful database-switch leaves the stored password
    unchanged and the new connection is the one the driver produced for
    exactly the stored user, password, host and port. -/
theorem C10_credentials_preserved (env : PgEnv) (s : Session) (sql db : List Char)
    (c : Nat) (h1 : isSwitchCommand (normalizeSql sql) = true)
    (h2 : (splitWs (normalizeSql sql))[1]? = some db)
    (h3 : env.connect db s.user s.password s.host s.port = some c) :
    (PGExecute.run env s sql).2.1.password = s.password ∧
    (PGExecute.run env s sql).2.1.conn = c := by
  rw [run_switch_eq env s sql h1, runSwitch_ok env s _ db c h2 h3]
  exact ⟨rfl, rfl⟩

/-- C10 witness: after switching to db2, the password is still s0's and
    the connection handle is the one connect returned. -/
theorem C10_credentials_preserved_witness :
    (PGExecute.run env0 s0 "\\c db2".toList).2.1.password = s0.password ∧
    (PGExecute.run env0 s0 "\\c db2".toList).2.1.conn = 7 :=
  C10_credentials_preserved env0 s0 "\\c db2".toList "db2".toList 7 (by decide)
    (by decide) (by decide)
